import Mathlib

/-!
Shallow embedding of the pluggable persistence and caching abstraction of
onlyoffice-integration-adapters (Go): the functional option model
(storage/storage.go), the storage backend variants (mongo store, empty
store), the cache facade (cache/cache.go) and the configuration
validation (config: StorageConfig.Validate, CacheConfig.Validate).

Go machine integers that matter here are small discriminants and sizes;
they are embedded as `Int`/`Nat`. The opaque `any` result target of the
option model is embedded as `Option Nat` (an abstract handle: `none`
models a nil Go interface value). Driver failures of external
collaborators (the MongoDB driver, the gocache marshaler) are supplied
as explicit failure oracles, so every visible control path of the
repository's own code is represented.
-/

namespace Adapters

/-- Errors visible at the adapter boundary. `invalidResultOption` embeds
the storage package's `_errInvalidResultOption` (the DecodeTargetMissing
error); `driver`, `commit` and `decode` embed opaque errors returned by
the external MongoDB driver at the operation, commit and decode steps. -/
inductive Err where
  | invalidResultOption : Err
  | driver : Nat → Err
  | commit : Nat → Err
  | decode : Nat → Err
deriving DecidableEq, Repr

/-! ## Option model (storage/storage.go) -/

/-- Embeds `ReadOptions` from storage/storage.go. `Result any` is
embedded as `Option Nat`: `none` is a nil interface value. Go zero
values are the field defaults, as in `var ops ReadOptions`. -/
structure ReadOptions where
  Database : String := ""
  Table : String := ""
  Key : String := ""
  Value : String := ""
  Prefix : String := ""
  Suffix : String := ""
  Limit : Nat := 0
  Offset : Nat := 0
  Result : Option Nat := none
deriving DecidableEq, Repr

/-- Embeds `WriteOptions` from storage/storage.go; `Expiry time.Time`
and `TTL time.Duration` are embedded as absolute / relative
milliseconds. -/
structure WriteOptions where
  Database : String := ""
  Table : String := ""
  Key : String := ""
  Value : String := ""
  Expiry : Nat := 0
  TTL : Nat := 0
deriving DecidableEq, Repr

/-- Embeds `DeleteOptions` from storage/storage.go. -/
structure DeleteOptions where
  Database : String := ""
  Table : String := ""
  Key : String := ""
  Value : String := ""
deriving DecidableEq, Repr

/-- One `ReadOption` builder step, one constructor per setter function
`ReadFrom` .. `ReadResult` of storage/storage.go, carrying the setter's
arguments. -/
inductive ReadStep where
  | ReadFrom (database table : String)
  | ReadKey (val : String)
  | ReadValue (val : String)
  | ReadPrefix (val : String)
  | ReadSuffix (val : String)
  | ReadLimit (val : Nat)
  | ReadOffset (val : Nat)
  | ReadResult (val : Nat)
deriving DecidableEq, Repr

/-- Applies one read builder step, embedding the closure bodies of
`ReadFrom` .. `ReadResult` in storage/storage.go. -/
def applyReadStep (s : ReadStep) (l : ReadOptions) : ReadOptions :=
  match s with
  | .ReadFrom d t => { l with Database := d, Table := t }
  | .ReadKey v => { l with Key := v }
  | .ReadValue v => { l with Value := v }
  | .ReadPrefix v => { l with Prefix := v }
  | .ReadSuffix v => { l with Suffix := v }
  | .ReadLimit v => { l with Limit := v }
  | .ReadOffset v => { l with Offset := v }
  | .ReadResult v => { l with Result := some v }

/-- Folds a list of read steps over the zero-valued options, as the
`for _, o := range opts { o(&ops) }` loops do. -/
def applyReadSteps (steps : List ReadStep) : ReadOptions :=
  steps.foldl (fun acc s => applyReadStep s acc) {}

/-- One `WriteOption` builder step of storage/storage.go. -/
inductive WriteStep where
  | WriteTo (database table : String)
  | WriteKey (val : String)
  | WriteValue (val : String)
  | WriteExpiry (val : Nat)
  | WriteTTL (val : Nat)
deriving DecidableEq, Repr

/-- Applies one write builder step (`WriteTo` .. `WriteTTL`). -/
def applyWriteStep (s : WriteStep) (w : WriteOptions) : WriteOptions :=
  match s with
  | .WriteTo d t => { w with Database := d, Table := t }
  | .WriteKey v => { w with Key := v }
  | .WriteValue v => { w with Value := v }
  | .WriteExpiry v => { w with Expiry := v }
  | .WriteTTL v => { w with TTL := v }

/-- Folds a list of write steps over the zero-valued options. -/
def applyWriteSteps (steps : List WriteStep) : WriteOptions :=
  steps.foldl (fun acc s => applyWriteStep s acc) {}

/-- One `DeleteOption` builder step of storage/storage.go. -/
inductive DeleteStep where
  | DeleteFrom (database table : String)
  | DeleteKey (val : String)
  | DeleteValue (val : String)
deriving DecidableEq, Repr

/-- Applies one delete builder step (`DeleteFrom` .. `DeleteValue`). -/
def applyDeleteStep (s : DeleteStep) (d : DeleteOptions) : DeleteOptions :=
  match s with
  | .DeleteFrom db t => { d with Database := db, Table := t }
  | .DeleteKey v => { d with Key := v }
  | .DeleteValue v => { d with Value := v }

/-- Folds a list of delete steps over the zero-valued options. -/
def applyDeleteSteps (steps : List DeleteStep) : DeleteOptions :=
  steps.foldl (fun acc s => applyDeleteStep s acc) {}

/-- The option-struct fields a builder step can write. -/
inductive OptField where
  | database | table | key | value | pfx | sfx | limit | offset | result
  | expiry | ttl
deriving DecidableEq, Repr

/-- The fields written by a read builder step. -/
def readStepFields : ReadStep → List OptField
  | .ReadFrom _ _ => [.database, .table]
  | .ReadKey _ => [.key]
  | .ReadValue _ => [.value]
  | .ReadPrefix _ => [.pfx]
  | .ReadSuffix _ => [.sfx]
  | .ReadLimit _ => [.limit]
  | .ReadOffset _ => [.offset]
  | .ReadResult _ => [.result]

/-- The fields written by a write builder step. -/
def writeStepFields : WriteStep → List OptField
  | .WriteTo _ _ => [.database, .table]
  | .WriteKey _ => [.key]
  | .WriteValue _ => [.value]
  | .WriteExpiry _ => [.expiry]
  | .WriteTTL _ => [.ttl]

/-- The fields written by a delete builder step. -/
def deleteStepFields : DeleteStep → List OptField
  | .DeleteFrom _ _ => [.database, .table]
  | .DeleteKey _ => [.key]
  | .DeleteValue _ => [.value]

/-- Two field lists are disjoint (no field written by both steps). -/
def fieldsDisjoint (xs ys : List OptField) : Bool :=
  xs.all (fun f => !(ys.contains f))

/-- C8: builder steps of the read, write and delete option models that
write disjoint field sets commute (either application order yields the
same options value), and when two steps write the same field set the
last applied step determines the final value. -/
theorem builder_steps_commute_and_override :
    (∀ (a b : ReadStep) (l : ReadOptions),
        fieldsDisjoint (readStepFields a) (readStepFields b) = true →
        applyReadStep b (applyReadStep a l) = applyReadStep a (applyReadStep b l)) ∧
    (∀ (a b : ReadStep) (l : ReadOptions),
        readStepFields a = readStepFields b →
        applyReadStep b (applyReadStep a l) = applyReadStep b l) ∧
    (∀ (a b : WriteStep) (w : WriteOptions),
        fieldsDisjoint (writeStepFields a) (writeStepFields b) = true →
        applyWriteStep b (applyWriteStep a w) = applyWriteStep a (applyWriteStep b w)) ∧
    (∀ (a b : WriteStep) (w : WriteOptions),
        writeStepFields a = writeStepFields b →
        applyWriteStep b (applyWriteStep a w) = applyWriteStep b w) ∧
    (∀ (a b : DeleteStep) (d : DeleteOptions),
        fieldsDisjoint (deleteStepFields a) (deleteStepFields b) = true →
        applyDeleteStep b (applyDeleteStep a d) = applyDeleteStep a (applyDeleteStep b d)) ∧
    (∀ (a b : DeleteStep) (d : DeleteOptions),
        deleteStepFields a = deleteStepFields b →
        applyDeleteStep b (applyDeleteStep a d) = applyDeleteStep b d) := by
  refine ⟨?_, ?_, ?_, ?_, ?_, ?_⟩ <;>
  · intro a b l h
    cases a <;> cases b <;>
      first
        | rfl
        | simp [fieldsDisjoint, readStepFields, writeStepFields,
            deleteStepFields] at h

/-- Witness for C8 at concrete builder steps: `ReadKey`/`ReadLimit`
(and write/delete analogues) commute, and repeated same-field setters
keep the last value. -/
theorem builder_steps_commute_and_override_witness :
    (applyReadStep (.ReadKey "k") (applyReadStep (.ReadLimit 2) {}) =
      applyReadStep (.ReadLimit 2) (applyReadStep (.ReadKey "k") {})) ∧
    (applyReadStep (.ReadKey "b") (applyReadStep (.ReadKey "a") {}) =
      applyReadStep (.ReadKey "b") {}) ∧
    (applyWriteStep (.WriteTTL 5) (applyWriteStep (.WriteTo "d" "t") {}) =
      applyWriteStep (.WriteTo "d" "t") (applyWriteStep (.WriteTTL 5) {})) ∧
    (applyWriteStep (.WriteTo "d2" "t2") (applyWriteStep (.WriteTo "d1" "t1") {}) =
      applyWriteStep (.WriteTo "d2" "t2") {}) ∧
    (applyDeleteStep (.DeleteKey "k") (applyDeleteStep (.DeleteValue "v") {}) =
      applyDeleteStep (.DeleteValue "v") (applyDeleteStep (.DeleteKey "k") {})) ∧
    (applyDeleteStep (.DeleteKey "y") (applyDeleteStep (.DeleteKey "x") {}) =
      applyDeleteStep (.DeleteKey "y") {}) :=
  ⟨builder_steps_commute_and_override.1 _ _ _ (by decide),
   builder_steps_commute_and_override.2.1 _ _ _ (by decide),
   builder_steps_commute_and_override.2.2.1 _ _ _ (by decide),
   builder_steps_commute_and_override.2.2.2.1 _ _ _ (by decide),
   builder_steps_commute_and_override.2.2.2.2.1 _ _ _ (by decide),
   builder_steps_commute_and_override.2.2.2.2.2 _ _ _ (by decide)⟩

/-! ## Configuration validation (config package) -/

/-- Embeds Go's `strings.TrimSpace`: drops leading and trailing
whitespace characters. Implemented structurally over the character
list so that concrete instances evaluate inside the kernel. -/
def goTrimSpace (s : String) : String :=
  ⟨((s.data.dropWhile Char.isWhitespace).reverse.dropWhile
      Char.isWhitespace).reverse⟩

/-- Embeds `InvalidConfigurationParameterError` of the config package
(the ConfigurationError of the design): a parameter name and a reason. -/
structure InvalidConfigurationParameterError where
  Parameter : String
  Reason : String
deriving DecidableEq, Repr

/-- Embeds the `Storage` nested struct of `StorageConfig`: persistence
driver type discriminant, connection URL and database name. The Go
field `Type` is spelled `StorageType` because `Type` is a Lean
keyword. -/
structure StorageConfig where
  StorageType : Int
  URL : String
  DB : String
deriving DecidableEq, Repr

/-- Embeds `StorageConfig.Validate`: trims `URL` and `DB` in place,
then switches on `Storage.Type`; both `case 1` and the `default` branch
reject an empty trimmed URL with the Parameter "URL" error. Returns the
error (or `none`) together with the mutated config. -/
def StorageConfig.Validate (p : StorageConfig) :
    Option InvalidConfigurationParameterError × StorageConfig :=
  let p' : StorageConfig :=
    { p with URL := goTrimSpace p.URL, DB := goTrimSpace p.DB }
  if p'.StorageType = 1 then
    if p'.URL = "" then
      (some ⟨"URL", "MongoDB driver expects a valid url"⟩, p')
    else (none, p')
  else
    if p'.URL = "" then
      (some ⟨"URL", "MongoDB driver expects a valid url"⟩, p')
    else (none, p')

/-- Embeds the `Cache` nested struct of `CacheConfig`: gocache adapter
type discriminant, freecache buffer size, redis address, username,
password and database index. The Go field `Type` is spelled
`CacheType` because `Type` is a Lean keyword. -/
structure CacheConfig where
  CacheType : Int
  Size : Int
  Address : String
  Username : String
  Password : String
  Database : Int
deriving DecidableEq, Repr

/-- Embeds `CacheConfig.Validate`: only `case 2` (redis) is checked,
rejecting an empty address with the Parameter "Address" error; every
other type validates successfully. -/
def CacheConfig.Validate (b : CacheConfig) :
    Option InvalidConfigurationParameterError :=
  if b.CacheType = 2 then
    if b.Address = "" then
      some ⟨"Address", "Redis cache must have a valid address"⟩
    else none
  else none

/-! ## Backend Selector (storage.NewStorage, cache.NewCache) -/

/-- The storage backend variants `NewStorage` can construct. -/
inductive StoreVariant where
  | mongo
  | empty
deriving DecidableEq, Repr

/-- Embeds the `switch config.Storage.Type` dispatch of
`storage.NewStorage`: `case 1` constructs the mongo store, the
`default` branch the empty store. -/
def newStorageVariant (t : Int) : StoreVariant :=
  if t = 1 then .mongo else .empty

/-- Embeds the `switch config.Cache.Type` dispatch of `cache.NewCache`:
`case 1` yields the Freecache-backed `CustomCache`, `case 2` the
Redis-backed one, and the `default` branch again Freecache. The
returned string is the `name` field stored in the `CustomCache`. -/
def newCacheName (t : Int) : String :=
  if t = 1 then "Freecache"
  else if t = 2 then "Redis"
  else "Freecache"

/-- C3: the Backend Selector dispatches on the integer discriminant as
specified — storage type 1 yields the document-oriented (mongo) variant
and any other value the no-op variant; cache type 2 yields the Redis
variant and any other value (including 1) the Freecache variant. -/
theorem selector_dispatch (t u : Int) :
    (newStorageVariant t = .mongo ↔ t = 1) ∧
    (newStorageVariant t = .empty ↔ t ≠ 1) ∧
    (newCacheName u = "Redis" ↔ u = 2) ∧
    (newCacheName u = "Freecache" ↔ u ≠ 2) := by
  refine ⟨?_, ?_, ?_, ?_⟩ <;>
    simp only [newStorageVariant, newCacheName] <;>
    by_cases h : t = 1 <;> by_cases h' : u = 1 <;> by_cases h'' : u = 2 <;>
      simp_all

/-- C4: validation of the configuration rejects a document-oriented
storage selection (type 1) whose URL is empty or whitespace-only with a
ConfigurationError naming Parameter "URL", and a distributed-cache
selection (type 2) whose address is empty with a ConfigurationError
naming Parameter "Address". Validation is pure: it constructs no
backend and attempts no connection. -/
theorem config_validation_rejects_missing_fields :
    (∀ p : StorageConfig, p.StorageType = 1 → goTrimSpace p.URL = "" →
      (StorageConfig.Validate p).1 =
        some ⟨"URL", "MongoDB driver expects a valid url"⟩) ∧
    (∀ b : CacheConfig, b.CacheType = 2 → b.Address = "" →
      CacheConfig.Validate b =
        some ⟨"Address", "Redis cache must have a valid address"⟩) := by
  constructor
  · intro p h1 h2
    simp [StorageConfig.Validate, h1, h2]
  · intro b h1 h2
    simp [CacheConfig.Validate, h1, h2]

/-- Witness for C4: the concrete configs {type 1, URL "  "} and
{type 2, Address ""} are rejected with the expected parameters. -/
theorem config_validation_rejects_missing_fields_witness :
    ((StorageConfig.Validate ⟨1, "  ", "db"⟩).1 =
      some ⟨"URL", "MongoDB driver expects a valid url"⟩) ∧
    (CacheConfig.Validate ⟨2, 10, "", "", "", 0⟩ =
      some ⟨"Address", "Redis cache must have a valid address"⟩) :=
  ⟨config_validation_rejects_missing_fields.1 ⟨1, "  ", "db"⟩ rfl (by decide),
   config_validation_rejects_missing_fields.2 ⟨2, 10, "", "", "", 0⟩ rfl rfl⟩

/-- C9: `StorageConfig.Validate` rejects an empty (or whitespace-only)
URL for every storage type discriminant, not only type 1 — the default
branch returns the identical Parameter "URL" error. -/
theorem storage_validate_requires_url_for_all_types :
    ∀ p : StorageConfig, goTrimSpace p.URL = "" →
      (StorageConfig.Validate p).1 =
        some ⟨"URL", "MongoDB driver expects a valid url"⟩ := by
  intro p h
  by_cases h1 : p.StorageType = 1 <;> simp [StorageConfig.Validate, h1, h]

/-- Witness for C9: a no-op storage selection (type 0) with an empty
URL is still rejected with the Parameter "URL" error. -/
theorem storage_validate_requires_url_for_all_types_witness :
    (StorageConfig.Validate ⟨0, "", "db"⟩).1 =
      some ⟨"URL", "MongoDB driver expects a valid url"⟩ :=
  storage_validate_requires_url_for_all_types ⟨0, "", "db"⟩ rfl

/-! ## go-micro store options and mongo initialization -/

/-- Embeds the fields of go-micro's `store.Options` that this
repository consumes: the database name and the node address list. -/
structure StoreOptions where
  Database : String := ""
  Nodes : List String := []
deriving DecidableEq, Repr

/-- One go-micro `store.Option` as used at the `NewStorage` call site:
`store.Database(db)` sets the database name, `store.Nodes(addrs...)`
replaces the node list. -/
inductive StoreOption where
  | database (db : String)
  | nodes (addrs : List String)
deriving DecidableEq, Repr

/-- Applies one go-micro store option setter. -/
def applyStoreOption (o : StoreOption) (s : StoreOptions) : StoreOptions :=
  match o with
  | .database db => { s with Database := db }
  | .nodes addrs => { s with Nodes := addrs }

/-- Folds store options over the zero value, as `mongoStore.Init` does
over `s.options`. -/
def applyStoreOptions (opts : List StoreOption) : StoreOptions :=
  opts.foldl (fun acc o => applyStoreOption o acc) {}

/-- The mgm configuration `mongoStore.configure` installs: a 3 second
default context timeout, the accumulated database name and the
connection URI taken from `s.options.Nodes[0]`. -/
structure MgmSetup where
  ctxTimeoutMs : Nat
  database : String
  uri : String
deriving DecidableEq, Repr

/-- Embeds `mongoStore.configure`: it indexes `s.options.Nodes[0]`
without an emptiness check; `none` models the index-out-of-range panic
on an empty node list. -/
def mongoConfigure (o : StoreOptions) : Option MgmSetup :=
  o.Nodes.head?.map (fun uri => ⟨3000, o.Database, uri⟩)

/-- Embeds `mongoStore.Init`: folds the supplied options into
`s.options`, then runs `configure`. -/
def mongoInit (opts : List StoreOption) : Option MgmSetup :=
  mongoConfigure (applyStoreOptions opts)

/-- Embeds the option list `NewStorage` passes to `Init`:
`store.Database(config.Storage.DB)` and a `store.Nodes` call with
exactly one node built from `config.Storage.URL`. -/
def newStorageInitOptions (cfg : StorageConfig) : List StoreOption :=
  [.database cfg.DB, .nodes [cfg.URL]]

/-- C10: `mongoStore.Init` panics (models as `none`) whenever the
accumulated node list is empty, since `configure` indexes `Nodes[0]`
unchecked; the selector `NewStorage` always passes exactly one node
built from the configured URL, so its `Init` call never hits the
panic. -/
theorem mongo_init_first_node :
    (∀ opts : List StoreOption,
        (applyStoreOptions opts).Nodes = [] → mongoInit opts = none) ∧
    (∀ cfg : StorageConfig,
        mongoInit (newStorageInitOptions cfg) = some ⟨3000, cfg.DB, cfg.URL⟩) := by
  constructor
  · intro opts h
    simp [mongoInit, mongoConfigure, h]
  · intro cfg
    rfl

/-- Witness for C10: `Init` with no options (empty node list) panics,
while `Init` with the options `NewStorage` builds from a concrete
config succeeds with that config's URL as the single node. -/
theorem mongo_init_first_node_witness :
    mongoInit [] = none ∧
    mongoInit (newStorageInitOptions ⟨1, "mongodb-url", "db"⟩) =
      some ⟨3000, "db", "mongodb-url"⟩ :=
  ⟨mongo_init_first_node.1 [] rfl,
   mongo_init_first_node.2 ⟨1, "mongodb-url", "db"⟩⟩

/-! ## Document store state (mongo variant, src/unnamed/part_003)

A bson document is embedded as an association list of field/value
pairs; the visible database state maps a collection name (as used by
`mgm.CollectionByName(ops.Table)`) to its list of documents. Failures
of the external MongoDB driver are supplied as explicit oracles
(`Option Err`: `some e` means the driver call returns `e`). -/

/-- A bson document: field/value pairs. -/
abbrev Doc := List (String × String)

/-- The visible record set: collection name to document list. -/
abbrev Tables := String → List Doc

/-- The document list of one collection (`mgm.CollectionByName`). -/
def getCol (st : Tables) (name : String) : List Doc := st name

/-- Replaces the document list of one collection. -/
def setCol (st : Tables) (name : String) (docs : List Doc) : Tables :=
  fun m => if m = name then docs else st m

/-- Whether a document matches the single field/value filter
`bson.M{k: v}`. -/
def docMatches (d : Doc) (k v : String) : Bool :=
  d.lookup k == some v

/-- `$set` of one field on a document: replaces the first binding of
the field or appends it. -/
def setField : Doc → String → String → Doc
  | [], k, v => [(k, v)]
  | (k', v') :: rest, k, v =>
      if k' = k then (k, v) :: rest else (k', v') :: setField rest k v

/-- The `$set` update document applied to a matched document. -/
def applySet (d payload : Doc) : Doc :=
  payload.foldl (fun acc kv => setField acc kv.1 kv.2) d

/-- `UpdateOne` on a collection: applies `$set payload` to the first
document matching the filter, leaving the rest unchanged. -/
def updateOneL (col : List Doc) (k v : String) (payload : Doc) : List Doc :=
  match col with
  | [] => []
  | d :: rest =>
      if docMatches d k v then applySet d payload :: rest
      else d :: updateOneL rest k v payload

/-- `DeleteOne` on a collection: removes the first document matching
the filter. -/
def deleteOneL (col : List Doc) (k v : String) : List Doc :=
  match col with
  | [] => []
  | d :: rest =>
      if docMatches d k v then rest else d :: deleteOneL rest k v

/-- `FindOne` on a collection: the first document matching the filter
`bson.M{k: v}`. -/
def findOneL (col : List Doc) (k v : String) : Option Doc :=
  match col with
  | [] => none
  | d :: rest => if docMatches d k v then some d else findOneL rest k v

/-- `Find` with the empty filter `bson.D{}` and the cursor options
`SetSkip(skip)`/`SetLimit(limit)`: an unfiltered scan; the MongoDB
driver treats limit 0 as "no limit". -/
def mongoFindAll (col : List Doc) (skip limit : Nat) : List Doc :=
  let dropped := col.drop skip
  if limit = 0 then dropped else dropped.take limit

/-- Embeds `mongoStore.Write` (src/unnamed/part_003): folds the write
options, then inside `mgm.TransactionWithCtx` performs a single
`InsertOne` — issued on the outer `ctx`, so its effect stands once the
insert itself succeeds — and explicitly commits. A failed insert makes
the body return before the commit (session aborted); `ofail`/`cfail`
are the driver's failure oracles for the insert and the commit. The
result is (returned error, whether the commit ran, visible state). -/
def mongoWriteRun (ofail cfail : Option Err) (st : Tables) (payload : Doc)
    (steps : List WriteStep) : Option Err × Bool × Tables :=
  let options := applyWriteSteps steps
  match ofail with
  | some e => (some e, false, st)
  | none =>
    let st' := setCol st options.Table (getCol st options.Table ++ [payload])
    match cfail with
    | some e => (some e, false, st')
    | none => (none, true, st')

/-- Embeds `mongoStore.Update`: a single `UpdateOne` with the filter
`{options.Key: options.Value}` and update `{$set: payload}` inside the
transaction wrapper, then an explicit commit. -/
def mongoUpdateRun (ofail cfail : Option Err) (st : Tables) (payload : Doc)
    (steps : List WriteStep) : Option Err × Bool × Tables :=
  let options := applyWriteSteps steps
  match ofail with
  | some e => (some e, false, st)
  | none =>
    let st' := setCol st options.Table
      (updateOneL (getCol st options.Table) options.Key options.Value payload)
    match cfail with
    | some e => (some e, false, st')
    | none => (none, true, st')

/-- Embeds `mongoStore.Delete`: a single `DeleteOne` with the filter
`{options.Key: options.Value}` inside the transaction wrapper, then an
explicit commit. -/
def mongoDeleteRun (ofail cfail : Option Err) (st : Tables)
    (steps : List DeleteStep) : Option Err × Bool × Tables :=
  let options := applyDeleteSteps steps
  match ofail with
  | some e => (some e, false, st)
  | none =>
    let st' := setCol st options.Table
      (deleteOneL (getCol st options.Table) options.Key options.Value)
    match cfail with
    | some e => (some e, false, st')
    | none => (none, true, st')

/-- Embeds `mongoStore.Read`: folds the read options, issues `FindOne`
with the filter `{options.Key: options.Value}`, then checks
`options.Result == nil` (returning `_errInvalidResultOption`) before
decoding the single result. `noDocsErr` is the driver error a decode of
an empty `SingleResult` yields; `decodeFail` is the decode-failure
oracle. Returns (error, decoded document). -/
def mongoReadRun (noDocsErr : Err) (decodeFail : Option Err) (st : Tables)
    (steps : List ReadStep) : Option Err × Option Doc :=
  let options := applyReadSteps steps
  let sres := findOneL (getCol st options.Table) options.Key options.Value
  match options.Result with
  | none => (some .invalidResultOption, none)
  | some _ =>
    match sres with
    | none => (some noDocsErr, none)
    | some d =>
      match decodeFail with
      | some e => (some e, none)
      | none => (none, some d)

/-- Embeds `mongoStore.List`: folds the read options, issues `Find`
with the empty filter and skip/limit, returns the find error if any,
then checks `options.Result == nil` before `cur.All` materializes the
documents into the result target. Returns (error, materialized
documents). -/
def mongoListRun (findErr decodeErr : Option Err) (st : Tables)
    (steps : List ReadStep) : Option Err × List Doc :=
  let options := applyReadSteps steps
  match findErr with
  | some e => (some e, [])
  | none =>
    let docs := mongoFindAll (getCol st options.Table) options.Offset options.Limit
    match options.Result with
    | none => (some .invalidResultOption, [])
    | some _ =>
      match decodeErr with
      | some e => (some e, [])
      | none => (none, docs)

/-- Embeds `emptyStore.Read` (src/unnamed/part_004): returns nil
unconditionally. -/
def emptyStoreRead (_steps : List ReadStep) : Option Err := none

/-- Embeds `emptyStore.List` (src/unnamed/part_004): returns nil
unconditionally. -/
def emptyStoreList (_steps : List ReadStep) : Option Err := none

/-- `UpdateOne` preserves the collection's document count. -/
theorem length_updateOneL (col : List Doc) (k v : String) (p : Doc) :
    (updateOneL col k v p).length = col.length := by
  induction col with
  | nil => rfl
  | cons d rest ih =>
      by_cases h : docMatches d k v <;> simp [updateOneL, h, ih]

/-- `DeleteOne` never grows the collection. -/
theorem length_deleteOneL_le (col : List Doc) (k v : String) :
    (deleteOneL col k v).length ≤ col.length := by
  induction col with
  | nil => simp [deleteOneL]
  | cons d rest ih =>
      by_cases h : docMatches d k v <;> simp [deleteOneL, h]
      all_goals omega

/-- `DeleteOne` removes at most one document. -/
theorem length_le_deleteOneL_succ (col : List Doc) (k v : String) :
    col.length ≤ (deleteOneL col k v).length + 1 := by
  induction col with
  | nil => simp [deleteOneL]
  | cons d rest ih =>
      by_cases h : docMatches d k v <;> simp [deleteOneL, h]
      all_goals omega

/-- Rewriting a collection makes exactly that document list visible. -/
theorem getCol_setCol (st : Tables) (name : String) (docs : List Doc) :
    getCol (setCol st name docs) name = docs := by
  simp [getCol, setCol]

/-- C1 counterexample: the claim quantifies over every storage backend
variant, but the no-op (empty) variant's `Read` with no result target
set returns nil — a silent success — not the `_errInvalidResultOption`
error. -/
theorem read_without_result_empty_variant_cex :
    emptyStoreRead [] = none ∧
    (none : Option Err) ≠ some .invalidResultOption :=
  ⟨rfl, by decide⟩

/-- C1 (amended): for the document-oriented variant, `Read` and `List`
whose options leave the result target unset return
`_errInvalidResultOption` — the backend query itself runs (for `List`,
provided the query succeeded) and the call fails at the decode step;
the no-op variant instead returns nil unconditionally. -/
theorem read_without_result_target :
    ∀ (noDocsErr : Err) (de fe : Option Err) (st : Tables)
      (steps : List ReadStep),
    ((applyReadSteps steps).Result = none →
        (mongoReadRun noDocsErr de st steps).1 = some .invalidResultOption) ∧
    ((applyReadSteps steps).Result = none → fe = none →
        (mongoListRun fe de st steps).1 = some .invalidResultOption) ∧
    emptyStoreRead steps = none ∧
    emptyStoreList steps = none := by
  intro noDocsErr de fe st steps
  refine ⟨?_, ?_, rfl, rfl⟩
  · intro h
    simp [mongoReadRun, h]
  · intro h hfe
    subst hfe
    simp [mongoListRun, h]

/-- Witness for C1 (amended): with no options applied (result target
unset), a mongo `Read` and a successful-query mongo `List` over the
empty state return `_errInvalidResultOption`, while the no-op variant
returns nil. -/
theorem read_without_result_target_witness :
    ((mongoReadRun (.driver 0) none (fun _ => []) []).1 =
        some .invalidResultOption) ∧
    ((mongoListRun none none (fun _ => []) []).1 =
        some .invalidResultOption) ∧
    emptyStoreRead [] = none ∧
    emptyStoreList [] = none :=
  ⟨(read_without_result_target (.driver 0) none none (fun _ => []) []).1 rfl,
   (read_without_result_target (.driver 0) none none (fun _ => []) []).2.1 rfl rfl,
   (read_without_result_target (.driver 0) none none (fun _ => []) []).2.2.1,
   (read_without_result_target (.driver 0) none none (fun _ => []) []).2.2.2⟩

/-- C2: for the document-oriented variant, each of `Write`, `Update`
and `Delete` performs exactly one document operation and commits only
if that operation (and the commit itself) succeeded; when the
underlying operation errors, the error is returned, the session is not
committed, and the visible record set is exactly the original one. On
success, `Write` appends exactly one document to the target collection,
`Update` leaves its document count unchanged, and `Delete` removes at
most one document. -/
theorem mongo_txn_ops_atomic :
    ∀ (ofail cfail : Option Err) (st : Tables) (payload : Doc)
      (wsteps usteps : List WriteStep) (dsteps : List DeleteStep) (e : Err),
    (mongoWriteRun (some e) cfail st payload wsteps = (some e, false, st)) ∧
    (mongoUpdateRun (some e) cfail st payload usteps = (some e, false, st)) ∧
    (mongoDeleteRun (some e) cfail st dsteps = (some e, false, st)) ∧
    ((mongoWriteRun ofail cfail st payload wsteps).2.1 = true →
        ofail = none ∧ cfail = none) ∧
    (getCol (mongoWriteRun none none st payload wsteps).2.2
        (applyWriteSteps wsteps).Table
      = getCol st (applyWriteSteps wsteps).Table ++ [payload]) ∧
    ((getCol (mongoUpdateRun none none st payload usteps).2.2
        (applyWriteSteps usteps).Table).length
      = (getCol st (applyWriteSteps usteps).Table).length) ∧
    ((getCol (mongoDeleteRun none none st dsteps).2.2
        (applyDeleteSteps dsteps).Table).length
      ≤ (getCol st (applyDeleteSteps dsteps).Table).length ∧
     (getCol st (applyDeleteSteps dsteps).Table).length
      ≤ (getCol (mongoDeleteRun none none st dsteps).2.2
          (applyDeleteSteps dsteps).Table).length + 1) := by
  intro ofail cfail st payload wsteps usteps dsteps e
  refine ⟨rfl, rfl, rfl, ?_, ?_, ?_, ?_, ?_⟩
  · intro h
    cases ofail with
    | some e' => simp [mongoWriteRun] at h
    | none =>
        cases cfail with
        | some e' => simp [mongoWriteRun] at h
        | none => exact ⟨rfl, rfl⟩
  · simp [mongoWriteRun, getCol_setCol]
  · simp [mongoUpdateRun, getCol_setCol, length_updateOneL]
  · simp [mongoDeleteRun, getCol_setCol]
    exact length_deleteOneL_le _ _ _
  · simp [mongoDeleteRun, getCol_setCol]
    exact length_le_deleteOneL_succ _ _ _

/-- Witness for C2: on the empty state with no options, a failed insert
leaves the state untouched and uncommitted; a successful write commits,
and the success cases are exercised at a concrete collection. -/
theorem mongo_txn_ops_atomic_witness :
    (mongoWriteRun (some (.driver 1)) none (fun _ => []) [("a", "1")] [] =
      (some (.driver 1), false, fun _ => [])) ∧
    ((none : Option Err) = none ∧ (none : Option Err) = none) ∧
    (getCol (mongoWriteRun none none (fun _ => []) [("a", "1")] []).2.2
        (applyWriteSteps []).Table
      = getCol (fun _ => []) (applyWriteSteps []).Table ++ [[("a", "1")]]) :=
  ⟨(mongo_txn_ops_atomic none none (fun _ => []) [("a", "1")] [] [] []
      (.driver 1)).1,
   (mongo_txn_ops_atomic none none (fun _ => []) [("a", "1")] [] [] []
      (.driver 1)).2.2.2.1 rfl,
   (mongo_txn_ops_atomic none none (fun _ => []) [("a", "1")] [] [] []
      (.driver 1)).2.2.2.2.1⟩

/-! ## Operation contexts (mongo variant) -/

/-- A Go context as the storage code builds one: `context.Background()`
or `context.WithTimeout(parent, ms)`. -/
inductive GoCtx where
  | background
  | withTimeout (parent : GoCtx) (ms : Nat)
deriving DecidableEq, Repr

/-- The effective deadline (in milliseconds from now) a context
carries: the tightest timeout along its parent chain; `none` means
unbounded. -/
def ctxDeadlineMs : GoCtx → Option Nat
  | .background => none
  | .withTimeout p ms =>
      some (match ctxDeadlineMs p with
            | none => ms
            | some d => min d ms)

/-- Embeds the context `mongoStore.Delete` passes to the driver:
`context.WithTimeout(context.Background(), 3*time.Second)` — built from
`Background`, not from the caller's context. -/
def mongoDeleteDriverCtx (_caller : GoCtx) : GoCtx :=
  .withTimeout .background 3000

/-- Embeds the context `mongoStore.Write` passes to the driver: the
caller's context unchanged. -/
def mongoWriteDriverCtx (caller : GoCtx) : GoCtx := caller

/-- Embeds the context `mongoStore.Update` passes to the driver: the
caller's context unchanged. -/
def mongoUpdateDriverCtx (caller : GoCtx) : GoCtx := caller

/-- Embeds the context `mongoStore.Read` passes to the driver: the
caller's context unchanged. -/
def mongoReadDriverCtx (caller : GoCtx) : GoCtx := caller

/-- Embeds the context `mongoStore.List` passes to the driver: the
caller's context unchanged. -/
def mongoListDriverCtx (caller : GoCtx) : GoCtx := caller

/-- C6: the document-oriented variant runs `Delete` under a bounded
3-second deadline that is the same whatever context (and deadline) the
caller supplies, while `Write`, `Update`, `Read` and `List` pass the
caller's own context through unchanged. -/
theorem mongo_delete_bounded_deadline (c c' : GoCtx) :
    mongoDeleteDriverCtx c = .withTimeout .background 3000 ∧
    mongoDeleteDriverCtx c = mongoDeleteDriverCtx c' ∧
    ctxDeadlineMs (mongoDeleteDriverCtx c) = some 3000 ∧
    mongoWriteDriverCtx c = c ∧
    mongoUpdateDriverCtx c = c ∧
    mongoReadDriverCtx c = c ∧
    mongoListDriverCtx c = c :=
  ⟨rfl, rfl, rfl, rfl, rfl, rfl, rfl⟩

/-- C7: the document-oriented `List` scans the collection with the
empty filter, applying only the skip/limit cursor options: whenever two
option-step lists agree on `Table`, `Offset`, `Limit` and the result
target, `List` behaves identically — the `Prefix`, `Suffix`, `Key`,
`Value` (and `Database`) fields have no effect — and on the success
path the returned documents are exactly the unfiltered scan of the
collection, paginated by `Offset`/`Limit`. -/
theorem mongo_list_ignores_filters :
    ∀ (fe de : Option Err) (st : Tables) (s1 s2 : List ReadStep),
    ((applyReadSteps s1).Table = (applyReadSteps s2).Table →
     (applyReadSteps s1).Offset = (applyReadSteps s2).Offset →
     (applyReadSteps s1).Limit = (applyReadSteps s2).Limit →
     (applyReadSteps s1).Result = (applyReadSteps s2).Result →
     mongoListRun fe de st s1 = mongoListRun fe de st s2) ∧
    ((applyReadSteps s1).Result.isSome →
     mongoListRun none none st s1 =
       (none, mongoFindAll (getCol st (applyReadSteps s1).Table)
         (applyReadSteps s1).Offset (applyReadSteps s1).Limit)) := by
  intro fe de st s1 s2
  constructor
  · intro h1 h2 h3 h4
    cases fe with
    | some e => rfl
    | none =>
        simp only [mongoListRun, h1, h2, h3, h4]
  · intro h
    match hr : (applyReadSteps s1).Result with
    | none => rw [hr] at h; simp at h
    | some r => simp only [mongoListRun, hr]

/-- Witness for C7: two concrete option lists differing only in their
filter fields produce the same `List` result, and a concrete
successful `List` returns the paginated flat scan. -/
theorem mongo_list_ignores_filters_witness :
    (mongoListRun none none
        (fun _ => [[("k", "1")], [("k", "2")]])
        [.ReadResult 1, .ReadKey "k", .ReadValue "1"] =
      mongoListRun none none
        (fun _ => [[("k", "1")], [("k", "2")]])
        [.ReadResult 1, .ReadSuffix "zz"]) ∧
    (mongoListRun none none
        (fun _ => [[("k", "1")], [("k", "2")]])
        [.ReadResult 1, .ReadKey "k", .ReadValue "1"] =
      (none, mongoFindAll
        (getCol (fun _ => [[("k", "1")], [("k", "2")]])
          (applyReadSteps [.ReadResult 1, .ReadKey "k", .ReadValue "1"]).Table)
        (applyReadSteps [.ReadResult 1, .ReadKey "k", .ReadValue "1"]).Offset
        (applyReadSteps [.ReadResult 1, .ReadKey "k", .ReadValue "1"]).Limit)) :=
  ⟨(mongo_list_ignores_filters none none
      (fun _ => [[("k", "1")], [("k", "2")]])
      [.ReadResult 1, .ReadKey "k", .ReadValue "1"]
      [.ReadResult 1, .ReadSuffix "zz"]).1 rfl rfl rfl rfl,
   (mongo_list_ignores_filters none none
      (fun _ => [[("k", "1")], [("k", "2")]])
      [.ReadResult 1, .ReadKey "k", .ReadValue "1"]
      [.ReadResult 1, .ReadSuffix "zz"]).2 rfl⟩

/-! ## Cache facade (cache/cache.go)

`CustomCache.Put`/`Get`/`Delete` delegate to the external gocache
marshaler (`store.Set` with `store.WithExpiration(d)`, `store.Get`,
`store.Delete`). Both variants `NewCache` constructs — Freecache
(type 1 / default) and Redis (type 2) — share these methods over the
same marshaler-store contract, so one boundary model covers both: a
keyed store of opaque payloads with absolute expiry instants, supplied
by the collaborator per §6 of the design. Time is a `Nat` instant in
milliseconds. -/

/-- The marshaler-store boundary state: entries of key, opaque payload
and absolute expiry instant. -/
abbrev MStore (α : Type) := List (String × α × Nat)

/-- The entry a key currently maps to (payload and expiry instant). -/
def mstoreLookup {α : Type} (st : MStore α) (k : String) : Option (α × Nat) :=
  match st with
  | [] => none
  | (k', v, t) :: rest => if k' = k then some (v, t) else mstoreLookup rest k

/-- `store.Set` with an expiration: installs the new entry for the key,
dropping any previous entry for it (overwrite). -/
def mstoreSet {α : Type} (st : MStore α) (k : String) (v : α) (expAt : Nat) :
    MStore α :=
  (k, v, expAt) :: st.filter (fun e => e.1 != k)

/-- The cache backend's miss signal, surfaced as an error value. -/
inductive CacheErr where
  | miss
deriving DecidableEq, Repr

/-- `store.Get`: the entry's payload when present and not yet expired
at the current instant, otherwise the backend miss error. -/
def mstoreGet {α : Type} (now : Nat) (st : MStore α) (k : String) :
    Except CacheErr α :=
  match mstoreLookup st k with
  | none => .error .miss
  | some (v, expAt) => if now < expAt then .ok v else .error .miss

/-- Embeds `CustomCache.Put`: `c.store.Set(ctx, key, val,
store.WithExpiration(d))` — the entry's expiry becomes `now + d`. -/
def cachePut {α : Type} (now : Nat) (st : MStore α) (k : String) (v : α)
    (d : Nat) : MStore α :=
  mstoreSet st k v (now + d)

/-- Embeds `CustomCache.Get`: `c.store.Get(ctx, key, &result)`,
returning the value, `time.Now()` and the first error encountered. -/
def cacheGet {α : Type} (now : Nat) (st : MStore α) (k : String) :
    Option α × Nat × Option CacheErr :=
  match mstoreGet now st k with
  | .ok v => (some v, now, none)
  | .error e => (none, now, some e)

/-- C5: for any cache state (hence for both the Freecache and the Redis
variant of `CustomCache`), any key, payload and ttl > 0, `Put` followed
immediately by `Get` on that key returns exactly the stored payload
with a nil error; and `Put` installs the key's entry with the supplied
payload and an expiry of now + ttl regardless of any previous entry —
overwriting the value and resetting the TTL. -/
theorem cache_put_get_roundtrip :
    ∀ {α : Type} (st : MStore α) (now : Nat) (k : String) (v : α) (d : Nat),
    0 < d →
    cacheGet now (cachePut now st k v d) k = (some v, now, none) ∧
    mstoreLookup (cachePut now st k v d) k = some (v, now + d) := by
  intro α st now k v d hd
  have hl : mstoreLookup (cachePut now st k v d) k = some (v, now + d) := by
    simp [cachePut, mstoreSet, mstoreLookup]
  refine ⟨?_, hl⟩
  have hn : now < now + d := by omega
  simp [cacheGet, mstoreGet, hl, hn]

/-- Witness for C5: over a state already holding key "k" with an older
value and expiry, a `Put` of 42 with ttl 7 at instant 10 is read back
as 42 with no error, and the entry was reset to (42, 17). -/
theorem cache_put_get_roundtrip_witness :
    cacheGet 10 (cachePut 10 [("k", 0, 5)] "k" 42 7) "k" =
      (some 42, 10, none) ∧
    mstoreLookup (cachePut 10 [("k", 0, 5)] "k" 42 7) "k" = some (42, 17) :=
  cache_put_get_roundtrip [("k", 0, 5)] 10 "k" 42 7 (by decide)

end Adapters
